import Mathlib

/-!
Verification of the GPT-2 pretraining script (train_gpt2.py) against its
natural-language specification.  The definitions below are a shallow
embedding of the script: machine floats are modelled as real numbers,
token tensors as lists and finite maps, and fallible tensor operations
return Option.
-/

set_option maxHeartbeats 1000000

/-! ## Learning-rate schedule (train_gpt2.py lines 275-287) -/

/-- Constant from line 275: max_lr = 6e-4. -/
noncomputable def max_lr : ℝ := 6e-4

/-- Constant from line 276: min_lr = 0.1 * max_lr. -/
noncomputable def min_lr : ℝ := 0.1 * max_lr

/-- Constant from line 277. -/
def warm_up_steps : ℕ := 715

/-- Constant from line 278. -/
def max_steps : ℕ := 19073

/-- Embedding of get_lr (lines 279-287): linear warmup for step < warm_up_steps,
the floor min_lr for step > max_steps, and a cosine interpolation in between. -/
noncomputable def get_lr (step : ℕ) : ℝ :=
  if step < warm_up_steps then
    ((step : ℝ) + 1) * max_lr / (warm_up_steps : ℝ)
  else if max_steps < step then
    min_lr
  else
    let dr : ℝ := ((step : ℝ) - (warm_up_steps : ℝ)) / ((max_steps : ℝ) - (warm_up_steps : ℝ))
    let coeff : ℝ := 0.5 * (1 + Real.cos (Real.pi * dr))
    min_lr + coeff * (max_lr - min_lr)

/-! ## Sharded data loader (train_gpt2.py lines 178-222)

Token tensors are lists of natural numbers.  Python slicing
tokens[a:b] clamps out-of-range bounds, which List.drop/List.take
also do; torch .view(B,T) fails unless the flat length is exactly B*T,
which the Option result of view2d models. -/

/-- Python slice l[a:b] on a token list. -/
def pySlice (a b : ℕ) (l : List ℕ) : List ℕ :=
  (l.drop a).take (b - a)

/-- Row-major reshape of a flat list into B rows of length T. -/
def reshape2d (B T : ℕ) (l : List ℕ) : List (List ℕ) :=
  (List.range B).map (fun i => (l.drop (i * T)).take T)

/-- Model of torch Tensor.view(B,T): succeeds only when the flat length is exactly B*T. -/
def view2d (B T : ℕ) (l : List ℕ) : Option (List (List ℕ)) :=
  if l.length = B * T then some (reshape2d B T l) else none

/-- State of DataLoaderLite (lines 178-222).  The shard list holds the token
contents of each shard file; tokens is the currently loaded shard. -/
structure DataLoaderLite where
  B : ℕ
  T : ℕ
  process_rank : ℕ
  num_processes : ℕ
  shards : List (List ℕ)
  current_shard : ℕ
  tokens : List ℕ
  current_position : ℕ

/-- Embedding of DataLoaderLite.reset (lines 208-211). -/
def DataLoaderLite.reset (d : DataLoaderLite) : DataLoaderLite :=
  { d with
    current_shard := 0
    tokens := d.shards.getD 0 []
    current_position := d.B * d.T * d.process_rank }

/-- Embedding of DataLoaderLite.__init__ (lines 179-207): the constructor sets
shard 0, loads it, sets the cursor to B*T*rank, and then calls reset (which
recomputes exactly those fields). -/
def DataLoaderLite.init (B T process_rank num_processes : ℕ)
    (shards : List (List ℕ)) : DataLoaderLite :=
  DataLoaderLite.reset
    { B := B
      T := T
      process_rank := process_rank
      num_processes := num_processes
      shards := shards
      current_shard := 0
      tokens := shards.getD 0 []
      current_position := B * T * process_rank }

/-- Embedding of DataLoaderLite.next_batch (lines 212-222): read
tokens[pos : pos+B*T+1], view buf[:-1] and buf[1:] as [B,T], advance the
cursor by B*T*num_processes, and wrap to the next shard (resetting the
cursor to B*T*rank) when the advanced cursor plus one more stride would
run past the current shard. -/
def DataLoaderLite.next_batch (d : DataLoaderLite) :
    Option (List (List ℕ) × List (List ℕ)) × DataLoaderLite :=
  let B := d.B
  let T := d.T
  let buf := (d.tokens.drop d.current_position).take (B * T + 1)
  let xy :=
    match view2d B T buf.dropLast, view2d B T buf.tail with
    | some x, some y => some (x, y)
    | _, _ => none
  let pos' := d.current_position + B * T * d.num_processes
  let d' :=
    if pos' + (B * T * d.num_processes + 1) > d.tokens.length then
      let ns := (d.current_shard + 1) % d.shards.length
      { d with
        current_shard := ns
        tokens := d.shards.getD ns []
        current_position := B * T * d.process_rank }
    else
      { d with current_position := pos' }
  (xy, d')

/-- Iterate next_batch n times, keeping only the state. -/
def DataLoaderLite.run (d : DataLoaderLite) : ℕ → DataLoaderLite
  | 0 => d
  | n + 1 => ((d.run n).next_batch).2

/-- Index set of the positions read by the next next_batch call
(the slice tokens[pos : pos+B*T+1] on line 214). -/
def DataLoaderLite.readPositions (d : DataLoaderLite) : Finset ℕ :=
  Finset.Ico d.current_position (d.current_position + (d.B * d.T + 1))

/-- Index set of the positions whose tokens form the inputs x of the next
next_batch call (the first B*T entries of the slice on line 214). -/
def DataLoaderLite.inputPositions (d : DataLoaderLite) : Finset ℕ :=
  Finset.Ico d.current_position (d.current_position + d.B * d.T)

/-- Invariant maintained by the loader: the hyperparameter fields are fixed,
the current shard index is in range, tokens holds the current shard, and a
full window of B*T+1 tokens is available at the cursor. -/
def LoaderInv (B T r W : ℕ) (shards : List (List ℕ)) (d : DataLoaderLite) : Prop :=
  d.B = B ∧ d.T = T ∧ d.process_rank = r ∧ d.num_processes = W ∧
  d.shards = shards ∧ d.current_shard < shards.length ∧
  d.tokens = shards.getD d.current_shard [] ∧
  d.current_position + (B * T + 1) ≤ d.tokens.length

/-! ## Gradient accumulation (train_gpt2.py lines 337-357)

The training step zeroes the gradient buffers once (line 338), then runs
grad_accum_steps micro-steps, each computing the mean cross-entropy of its
micro-batch, scaling it by 1/grad_accum_steps (line 346) and calling
backward, which adds the gradient of the scaled loss into the buffers.
Autograd is linear: the gradient of (1/k) * mean of N per-position losses
is (1/k) * (1/N) * the sum of the per-position loss gradients, and the k
backward calls sum into one buffer.  The function g below gives the
gradient vector of the per-position loss at micro-step m, position b;
gradients live in an arbitrary coordinate space ι → ℚ. -/

/-- Gradient buffer contents after the k backward calls of one accumulation
window: the sum over micro-steps of the gradient of (micro-batch mean loss)/k. -/
def accumulatedGrad (k N : ℕ) {ι : Type} (g : Fin k → Fin N → ι → ℚ) : ι → ℚ :=
  fun p => ∑ m : Fin k, (∑ b : Fin N, g m b p) / (N : ℚ) / (k : ℚ)

/-- Gradient of the mean-reduced cross-entropy of the single concatenated
batch of k*N positions (F.cross_entropy with default mean reduction,
line 110). -/
def fullBatchGrad (k N : ℕ) {ι : Type} (g : Fin k → Fin N → ι → ℚ) : ι → ℚ :=
  fun p => (∑ m : Fin k, ∑ b : Fin N, g m b p) / ((k : ℚ) * (N : ℚ))

/-! ## DDP model wiring (train_gpt2.py lines 267-273 and 340-352)

The script builds the GPT module (line 267), compiles it (line 269), and on
lines 271-272 evaluates DDP(model, device_ids=[ddp_local_rank]) without
assigning the result.  A module carries gradient-synchronizing hooks only
if it is the DistributedDataParallel wrapper object; backward on a plain
module performs no communication. -/

/-- Whether a bound model object is the DistributedDataParallel wrapper. -/
structure TorchModule where
  is_ddp_wrapper : Bool
deriving DecidableEq

/-- Line 267: model = GPT(GPTConfig(vocab_size=50304)) — a plain module. -/
def gptModule : TorchModule := { is_ddp_wrapper := false }

/-- Line 269: torch.compile wraps the module without adding communication hooks. -/
def torchCompile (m : TorchModule) : TorchModule := m

/-- DDP(model, ...) constructs a new wrapper object around the module. -/
def ddpWrap (_m : TorchModule) : TorchModule := { is_ddp_wrapper := true }

/-- Lines 271-272: if ddp: DDP(model, device_ids=[ddp_local_rank]).
The wrapper is constructed and immediately discarded — the statement has no
assignment — so the name model still refers to the unwrapped module. -/
def modelAfterDDPLine (ddp : Bool) (model : TorchModule) : TorchModule :=
  if ddp then
    let _wrapper := ddpWrap model
    model
  else model

/-- The object bound to the name model when the training loop starts. -/
def scriptModel (ddp : Bool) : TorchModule :=
  modelAfterDDPLine ddp (torchCompile gptModule)

/-- DDP semantics at micro-step micro_step of a window of grad_accum_steps
micro-steps: backward launches a gradient all-reduce iff the module is the
DDP wrapper and require_backward_grad_sync is set, which line 349 makes
true exactly on the final micro-step.  A plain module never communicates. -/
def microStepAllReduces (model : TorchModule) (micro_step grad_accum_steps : ℕ) : Bool :=
  model.is_ddp_wrapper && (micro_step == grad_accum_steps - 1)

/-- Number of gradient all-reduces performed across one accumulation window. -/
def allReducesPerWindow (model : TorchModule) (grad_accum_steps : ℕ) : ℕ :=
  ((List.range grad_accum_steps).filter
    (fun ms => microStepAllReduces model ms grad_accum_steps)).length

/-! ## Weight initialization (train_gpt2.py lines 9-30 and 87-96) -/

/-- Kinds of submodule that GPT._init_weights (lines 87-96) can meet while
self.apply walks the module tree.  A Linear records whether the
NANOGPT_SCALE_INIT attribute was set on it and whether it has a bias. -/
inductive PyModule where
  | linear (nanogpt_scale_init : Bool) (has_bias : Bool)
  | embedding
  | layerNormModule
  | other
deriving DecidableEq

/-- Standard deviation that _init_weights draws the weight of a module from
(none when the module is not touched): Linear weights use std = 0.02,
multiplied by (2 * n_layer) ** -0.5 when NANOGPT_SCALE_INIT is present;
Embedding weights use std = 0.02. -/
noncomputable def initWeightStd (n_layer : ℕ) : PyModule → Option ℝ
  | .linear scale _ =>
      some (if scale then 0.02 * ((2 * (n_layer : ℝ)) ^ (-0.5 : ℝ)) else 0.02)
  | .embedding => some 0.02
  | _ => none

/-- Value _init_weights writes into a bias tensor (none when the module has
no bias or is not touched): Linear biases are zeroed. -/
def initBiasValue : PyModule → Option ℝ
  | .linear _ true => some 0
  | _ => none

/-- CausalSelfAttention.c_attn (line 25): Linear, no scale tag, bias. -/
def attn_c_attn : PyModule := .linear false true

/-- CausalSelfAttention.c_proj (lines 26-27): Linear with NANOGPT_SCALE_INIT set. -/
def attn_c_proj : PyModule := .linear true true

/-- MLP.c_fc (line 12): Linear, no scale tag, bias. -/
def mlp_c_fc : PyModule := .linear false true

/-- MLP.c_proj (line 14): Linear with bias; no NANOGPT_SCALE_INIT is set on it. -/
def mlp_c_proj : PyModule := .linear false true

/-- lm_head (line 80): Linear without bias, no scale tag. -/
def lm_head_module : PyModule := .linear false false

/-! ## Transformer model (train_gpt2.py lines 9-111)

Activations are real-valued; a sequence activation is a function
Fin T → Fin C → ℝ (position, channel).  All tensor operations of the
forward pass act identically and independently on each row of the batch,
so the model is embedded per sequence and the batched forward maps it
over the batch index. -/

/-- Parameters of nn.Linear(nin, nout): weight[out,in] and bias[out]. -/
structure LinearParams (nin nout : ℕ) where
  weight : Fin nout → Fin nin → ℝ
  bias : Fin nout → ℝ

/-- y = x Wᵀ + b, the action of nn.Linear on one feature vector. -/
noncomputable def LinearParams.apply {nin nout : ℕ} (p : LinearParams nin nout)
    (x : Fin nin → ℝ) : Fin nout → ℝ :=
  fun o => (∑ i : Fin nin, p.weight o i * x i) + p.bias o

/-- Parameters of nn.LayerNorm(n): elementwise affine weight and bias. -/
structure LayerNormParams (n : ℕ) where
  weight : Fin n → ℝ
  bias : Fin n → ℝ

/-- nn.LayerNorm with the default eps = 1e-5: normalize one feature vector by
its mean and biased variance, then apply the elementwise affine map. -/
noncomputable def layerNorm {n : ℕ} (p : LayerNormParams n) (x : Fin n → ℝ) :
    Fin n → ℝ :=
  let mean : ℝ := (∑ i : Fin n, x i) / (n : ℝ)
  let variance : ℝ := (∑ i : Fin n, (x i - mean) ^ 2) / (n : ℝ)
  fun i => (x i - mean) / Real.sqrt (variance + 1e-5) * p.weight i + p.bias i

/-- nn.GELU(approximate = tanh) (line 13). -/
noncomputable def geluTanh (x : ℝ) : ℝ :=
  0.5 * x * (1 + Real.tanh (Real.sqrt (2 / Real.pi) * (x + 0.044715 * x ^ 3)))

/-- Parameters of the MLP block (lines 9-14): c_fc expands C to 4C and
c_proj contracts 4C back to C. -/
structure MLPParams (C : ℕ) where
  c_fc : LinearParams C (4 * C)
  c_proj : LinearParams (4 * C) C

/-- MLP.forward (lines 16-20): x -> c_proj(gelu(c_fc(x))), positionwise. -/
noncomputable def MLPParams.forward {C : ℕ} (p : MLPParams C) (x : Fin C → ℝ) :
    Fin C → ℝ :=
  p.c_proj.apply (fun j => geluTanh (p.c_fc.apply x j))

/-- Parameters of CausalSelfAttention (lines 21-30): c_attn maps C to 3C
(packed q,k,v) and c_proj maps C back to C. -/
structure AttnParams (C : ℕ) where
  c_attn : LinearParams C (3 * C)
  c_proj : LinearParams C C

/-- Read coordinate n of a 3C-dimensional vector, with reads past the end
giving 0 (all reads made by the forward pass stay in range when the head
count divides C, as line 24 asserts). -/
def at3 (C : ℕ) (v : Fin (3 * C) → ℝ) (n : ℕ) : ℝ :=
  if h : n < 3 * C then v ⟨n, h⟩ else 0

/-- Packed qkv = c_attn(x) at one position (line 34). -/
noncomputable def attnQKV {C T : ℕ} (p : AttnParams C) (x : Fin T → Fin C → ℝ)
    (t : Fin T) : Fin (3 * C) → ℝ :=
  p.c_attn.apply (x t)

/-- Flat query vector at a position: coordinates [0, C) of qkv (line 35 split). -/
noncomputable def attnQ {C T : ℕ} (p : AttnParams C) (x : Fin T → Fin C → ℝ)
    (t : Fin T) (n : ℕ) : ℝ :=
  at3 C (attnQKV p x t) n

/-- Flat key vector at a position: coordinates [C, 2C) of qkv. -/
noncomputable def attnK {C T : ℕ} (p : AttnParams C) (x : Fin T → Fin C → ℝ)
    (t : Fin T) (n : ℕ) : ℝ :=
  at3 C (attnQKV p x t) (C + n)

/-- Flat value vector at a position: coordinates [2C, 3C) of qkv. -/
noncomputable def attnV {C T : ℕ} (p : AttnParams C) (x : Fin T → Fin C → ℝ)
    (t : Fin T) (n : ℕ) : ℝ :=
  at3 C (attnQKV p x t) (2 * C + n)

/-- Scaled dot product of the head-hd slice (head size C/H) of query t with
key j, as computed inside F.scaled_dot_product_attention (line 43). -/
noncomputable def attnScore {C T : ℕ} (H : ℕ) (p : AttnParams C)
    (x : Fin T → Fin C → ℝ) (t j : Fin T) (hd : ℕ) : ℝ :=
  (∑ d ∈ Finset.range (C / H),
      attnQ p x t (hd * (C / H) + d) * attnK p x j (hd * (C / H) + d)) /
    Real.sqrt ((C : ℝ) / (H : ℝ))

/-- The causal index set of query position t: key positions j ≤ t.  With
is_causal=True, attention weights to positions j > t are zero. -/
def causalSet {T : ℕ} (t : Fin T) : Finset (Fin T) :=
  Finset.univ.filter (fun j => j ≤ t)

/-- Softmax weight that query position t puts on key position j in head hd,
normalized over the causally visible positions j ≤ t. -/
noncomputable def attnWeight {C T : ℕ} (H : ℕ) (p : AttnParams C)
    (x : Fin T → Fin C → ℝ) (t j : Fin T) (hd : ℕ) : ℝ :=
  Real.exp (attnScore H p x t j hd) /
    ∑ j' ∈ causalSet t, Real.exp (attnScore H p x t j' hd)

/-- Per-head attention outputs re-flattened to C channels (lines 43-44):
output channel c belongs to head c / (C/H), and equals the weighted sum of
the corresponding value coordinates over the causally visible positions. -/
noncomputable def attnY {C T : ℕ} (H : ℕ) (p : AttnParams C)
    (x : Fin T → Fin C → ℝ) (t : Fin T) (c : Fin C) : ℝ :=
  ∑ j ∈ causalSet t, attnWeight H p x t j (c.1 / (C / H)) * attnV p x j c.1

/-- CausalSelfAttention.forward (lines 32-46): project, attend causally per
head, concatenate heads, project back with c_proj. -/
noncomputable def CausalSelfAttention.forward {C T : ℕ} (H : ℕ) (p : AttnParams C)
    (x : Fin T → Fin C → ℝ) (t : Fin T) : Fin C → ℝ :=
  p.c_proj.apply (attnY H p x t)

/-- Parameters of one transformer Block (lines 48-54). -/
structure BlockParams (C : ℕ) where
  ln_1 : LayerNormParams C
  attn : AttnParams C
  ln_2 : LayerNormParams C
  mlp : MLPParams C

/-- First residual update of Block.forward (line 57): x = x + attn(ln_1(x)). -/
noncomputable def Block.attnResidual {C T : ℕ} (H : ℕ) (p : BlockParams C)
    (x : Fin T → Fin C → ℝ) : Fin T → Fin C → ℝ :=
  fun t c =>
    x t c + CausalSelfAttention.forward H p.attn (fun u => layerNorm p.ln_1 (x u)) t c

/-- Block.forward (lines 56-59): x = x + attn(ln_1(x)); x = x + mlp(ln_2(x)). -/
noncomputable def Block.forward {C T : ℕ} (H : ℕ) (p : BlockParams C)
    (x : Fin T → Fin C → ℝ) : Fin T → Fin C → ℝ :=
  fun t c =>
    Block.attnResidual H p x t c
      + (p.mlp.forward (layerNorm p.ln_2 (Block.attnResidual H p x t))) c

/-- Model hyperparameters, GPTConfig (lines 61-67). -/
structure GPTConfig where
  block_size : ℕ := 1024
  vocab_size : ℕ := 50257
  n_layer : ℕ := 12
  n_head : ℕ := 12
  n_embd : ℕ := 768

/-- All GPT parameters other than the shared embedding / lm_head matrix:
the positional table wpe, the blocks h, and the final norm ln_f. -/
structure GPTBody (cfg : GPTConfig) where
  wpe : Fin cfg.block_size → Fin cfg.n_embd → ℝ
  h : Fin cfg.n_layer → BlockParams cfg.n_embd
  ln_f : LayerNormParams cfg.n_embd

/-- Full GPT parameter set.  There is one wte field: line 82
(self.transformer.wte.weight = self.lm_head.weight) makes the token
embedding table and the lm_head weight a single storage. -/
structure GPTParams (cfg : GPTConfig) where
  wte : Fin cfg.vocab_size → Fin cfg.n_embd → ℝ
  body : GPTBody cfg

/-- Summed token and positional embeddings (lines 100-103).  The wte table
is the wteEmbed argument; the tied model passes the shared storage. -/
noncomputable def GPT.embed (cfg : GPTConfig) (body : GPTBody cfg)
    (wteEmbed : Fin cfg.vocab_size → Fin cfg.n_embd → ℝ)
    {T : ℕ} (idx : Fin T → Fin cfg.vocab_size) : Fin T → Fin cfg.n_embd → ℝ :=
  fun t c =>
    wteEmbed (idx t) c + (if h : t.1 < cfg.block_size then body.wpe ⟨t.1, h⟩ c else 0)

/-- The block stack applied in order to the summed token and positional
embeddings (lines 100-105). -/
noncomputable def GPT.trunk (cfg : GPTConfig) (body : GPTBody cfg)
    (wteEmbed : Fin cfg.vocab_size → Fin cfg.n_embd → ℝ)
    {T : ℕ} (idx : Fin T → Fin cfg.vocab_size) : Fin T → Fin cfg.n_embd → ℝ :=
  (List.finRange cfg.n_layer).foldl
    (fun x l => Block.forward cfg.n_head (body.h l) x)
    (GPT.embed cfg body wteEmbed idx)

/-- Core of GPT.forward (lines 97-107) with the two usage sites of the
shared matrix kept as separate arguments: wteEmbed is the table read by the
token-embedding lookup and wteHead is the weight used by lm_head (no bias).
The tied model passes the same storage for both. -/
noncomputable def GPT.logitsUntied (cfg : GPTConfig) (body : GPTBody cfg)
    (wteEmbed wteHead : Fin cfg.vocab_size → Fin cfg.n_embd → ℝ)
    {T : ℕ} (idx : Fin T → Fin cfg.vocab_size) :
    Fin T → Fin cfg.vocab_size → ℝ :=
  fun t v => ∑ c : Fin cfg.n_embd,
    wteHead v c * layerNorm body.ln_f (GPT.trunk cfg body wteEmbed idx t) c

/-- Logits of GPT.forward on one sequence: both usage sites of the shared
storage read p.wte (weight tying, line 82). -/
noncomputable def GPT.logits (cfg : GPTConfig) (p : GPTParams cfg)
    {T : ℕ} (idx : Fin T → Fin cfg.vocab_size) :
    Fin T → Fin cfg.vocab_size → ℝ :=
  GPT.logitsUntied cfg p.body p.wte p.wte idx

/-- GPT.forward on a [batch, T] token array (lines 97-111): the assert on
line 99 fails (none) iff T exceeds block_size; otherwise the logits tensor
of shape [batch, T, vocab_size] is returned. -/
noncomputable def GPT.forward (cfg : GPTConfig) (p : GPTParams cfg)
    {Bn T : ℕ} (idx : Fin Bn → Fin T → Fin cfg.vocab_size) :
    Option (Fin Bn → Fin T → Fin cfg.vocab_size → ℝ) :=
  if T ≤ cfg.block_size then some (fun b => GPT.logits cfg p (idx b)) else none

/-- Cross-entropy of one logit row against a target class:
-log softmax(l)[tgt] = log (Σ exp l) - l tgt. -/
noncomputable def crossEntropyLoss {V : ℕ} (l : Fin V → ℝ) (tgt : Fin V) : ℝ :=
  Real.log (∑ u : Fin V, Real.exp (l u)) - l tgt

/-- Mean cross-entropy loss of one sequence (line 110, default mean
reduction over the positions) with the two wte usage sites untied. -/
noncomputable def GPT.lossUntied (cfg : GPTConfig) (body : GPTBody cfg)
    (wteEmbed wteHead : Fin cfg.vocab_size → Fin cfg.n_embd → ℝ)
    {T : ℕ} (idx targets : Fin T → Fin cfg.vocab_size) : ℝ :=
  (∑ t : Fin T, crossEntropyLoss
      (GPT.logitsUntied cfg body wteEmbed wteHead idx t) (targets t)) / (T : ℝ)

/-- Training loss of the tied model. -/
noncomputable def GPT.loss (cfg : GPTConfig) (p : GPTParams cfg)
    {T : ℕ} (idx targets : Fin T → Fin cfg.vocab_size) : ℝ :=
  GPT.lossUntied cfg p.body p.wte p.wte idx targets

/-- Space of the shared embedding / lm_head storage. -/
abbrev WteSpace (cfg : GPTConfig) := Fin cfg.vocab_size → Fin cfg.n_embd → ℝ

/-- The token-embedding view of the shared storage (transformer.wte.weight). -/
def wteView {cfg : GPTConfig} (p : GPTParams cfg) : WteSpace cfg := p.wte

/-- The output-head view of the shared storage (lm_head.weight): line 82
rebinds it to the very same storage. -/
def lmHeadView {cfg : GPTConfig} (p : GPTParams cfg) : WteSpace cfg := p.wte

/-- Agreement of two sequence activations on all positions up to i. -/
def AgreeUpTo {α : Type} {T : ℕ} (i : Fin T) (x y : Fin T → α) : Prop :=
  ∀ j : Fin T, j ≤ i → x j = y j

/-- Concrete per-position gradient family used to instantiate the
accumulation-equivalence theorem. -/
def gExample : Fin 2 → Fin 3 → Fin 1 → ℚ :=
  fun m b _ => (m.1 : ℚ) + 2 * (b.1 : ℚ)

/-- Tiny concrete configuration used to instantiate the model theorems:
block_size 2, vocabulary 2, no blocks, one head, one channel. -/
def cfgW : GPTConfig :=
  { block_size := 2, vocab_size := 2, n_layer := 0, n_head := 1, n_embd := 1 }

/-- All-zero non-embedding parameters for cfgW. -/
def bodyW : GPTBody cfgW :=
  { wpe := fun _ _ => 0
    h := Fin.elim0
    ln_f := { weight := fun _ => 0, bias := fun _ => 0 } }

/-- All-zero full parameter set for cfgW. -/
def paramsW : GPTParams cfgW := { wte := fun _ _ => 0, body := bodyW }

/-- Concrete 2-token input. -/
def idxW : Fin 2 → Fin cfgW.vocab_size := fun _ => ⟨0, by decide⟩

/-- Concrete 2-token input agreeing with idxW at position 0 and differing
at position 1. -/
def idxW' : Fin 2 → Fin cfgW.vocab_size :=
  fun j => if j.1 = 0 then ⟨0, by decide⟩ else ⟨1, by decide⟩

/-- Tiny degenerate configuration for the weight-tying witness: one of
everything and no blocks, so the loss is constant. -/
def cfgOne : GPTConfig :=
  { block_size := 1, vocab_size := 1, n_layer := 0, n_head := 1, n_embd := 1 }

/-- All-zero non-embedding parameters for cfgOne. -/
def bodyOne : GPTBody cfgOne :=
  { wpe := fun _ _ => 0
    h := Fin.elim0
    ln_f := { weight := fun _ => 0, bias := fun _ => 0 } }

/-- Single-token input for cfgOne. -/
def idxOne : Fin 1 → Fin cfgOne.vocab_size := fun _ => ⟨0, by decide⟩

/-! ## Lemmas about the data loader -/

theorem view2d_eq_some {B T : ℕ} {l : List ℕ} (h : l.length = B * T) :
    view2d B T l = some (reshape2d B T l) := by
  simp [view2d, h]

theorem take_succ_dropLast (u : List ℕ) (m : ℕ) (h : m + 1 ≤ u.length) :
    (u.take (m + 1)).dropLast = u.take m := by
  rw [List.dropLast_eq_take, List.length_take, min_eq_left h]
  have h1 : m + 1 - 1 = m := rfl
  rw [h1, List.take_take, min_eq_left (Nat.le_succ m)]

theorem take_succ_tail (u : List ℕ) (m : ℕ) :
    (u.take (m + 1)).tail = u.tail.take m := by
  cases u <;> simp

theorem DataLoaderLite.next_batch_fst (d : DataLoaderLite)
    (h : d.current_position + (d.B * d.T + 1) ≤ d.tokens.length) :
    (d.next_batch).1 = some
      (reshape2d d.B d.T
        (pySlice d.current_position (d.current_position + d.B * d.T) d.tokens),
       reshape2d d.B d.T
        (pySlice (d.current_position + 1) (d.current_position + 1 + d.B * d.T) d.tokens)) := by
  have hd1 : (d.tokens.drop d.current_position).length
      = d.tokens.length - d.current_position := List.length_drop ..
  have htail : (d.tokens.drop d.current_position).tail
      = d.tokens.drop (d.current_position + 1) := by
    rw [← List.drop_one, List.drop_drop]
  have hx : ((d.tokens.drop d.current_position).take (d.B * d.T + 1)).dropLast
      = pySlice d.current_position (d.current_position + d.B * d.T) d.tokens := by
    rw [take_succ_dropLast _ _ (by omega), pySlice]
    congr 1
    omega
  have hy : ((d.tokens.drop d.current_position).take (d.B * d.T + 1)).tail
      = pySlice (d.current_position + 1) (d.current_position + 1 + d.B * d.T) d.tokens := by
    rw [take_succ_tail, htail, pySlice]
    congr 1
    omega
  have hlx : (pySlice d.current_position (d.current_position + d.B * d.T) d.tokens).length
      = d.B * d.T := by
    rw [pySlice, List.length_take, List.length_drop, min_eq_left (by omega)]
    omega
  have hly : (pySlice (d.current_position + 1) (d.current_position + 1 + d.B * d.T) d.tokens).length
      = d.B * d.T := by
    rw [pySlice, List.length_take, List.length_drop, min_eq_left (by omega)]
    omega
  have e1 : (d.next_batch).1 =
      match view2d d.B d.T (((d.tokens.drop d.current_position).take (d.B * d.T + 1)).dropLast),
            view2d d.B d.T (((d.tokens.drop d.current_position).take (d.B * d.T + 1)).tail) with
      | some x, some y => some (x, y)
      | _, _ => none := rfl
  rw [e1, hx, hy, view2d_eq_some hlx, view2d_eq_some hly]

theorem DataLoaderLite.next_batch_snd_no_wrap (d : DataLoaderLite)
    (h : d.current_position + d.B * d.T * d.num_processes
        + (d.B * d.T * d.num_processes + 1) ≤ d.tokens.length) :
    (d.next_batch).2
      = { d with current_position := d.current_position + d.B * d.T * d.num_processes } := by
  have e2 : (d.next_batch).2 =
      if d.current_position + d.B * d.T * d.num_processes
          + (d.B * d.T * d.num_processes + 1) > d.tokens.length then
        { d with
          current_shard := (d.current_shard + 1) % d.shards.length
          tokens := d.shards.getD ((d.current_shard + 1) % d.shards.length) []
          current_position := d.B * d.T * d.process_rank }
      else
        { d with current_position := d.current_position + d.B * d.T * d.num_processes } := rfl
  rw [e2, if_neg (by omega)]

theorem DataLoaderLite.next_batch_snd_wrap (d : DataLoaderLite)
    (h : d.tokens.length < d.current_position + d.B * d.T * d.num_processes
        + (d.B * d.T * d.num_processes + 1)) :
    (d.next_batch).2 = { d with
      current_shard := (d.current_shard + 1) % d.shards.length
      tokens := d.shards.getD ((d.current_shard + 1) % d.shards.length) []
      current_position := d.B * d.T * d.process_rank } := by
  have e2 : (d.next_batch).2 =
      if d.current_position + d.B * d.T * d.num_processes
          + (d.B * d.T * d.num_processes + 1) > d.tokens.length then
        { d with
          current_shard := (d.current_shard + 1) % d.shards.length
          tokens := d.shards.getD ((d.current_shard + 1) % d.shards.length) []
          current_position := d.B * d.T * d.process_rank }
      else
        { d with current_position := d.current_position + d.B * d.T * d.num_processes } := rfl
  rw [e2, if_pos (by omega)]

theorem DataLoaderLite.run_no_wrap (B T r W : ℕ) (ts : List ℕ) (n : ℕ)
    (h : r * (B * T) + n * (B * T * W) + (B * T * W + 1) ≤ ts.length) :
    (DataLoaderLite.init B T r W [ts]).run n =
      { B := B, T := T, process_rank := r, num_processes := W, shards := [ts],
        current_shard := 0, tokens := ts,
        current_position := r * (B * T) + n * (B * T * W) } := by
  induction n with
  | zero =>
      simp only [DataLoaderLite.run, DataLoaderLite.init, DataLoaderLite.reset]
      simp
      ring
  | succ n ih =>
      have hmono : n * (B * T * W) ≤ (n + 1) * (B * T * W) :=
        Nat.mul_le_mul_right _ (Nat.le_succ n)
      have h' : r * (B * T) + n * (B * T * W) + (B * T * W + 1) ≤ ts.length := by omega
      rw [DataLoaderLite.run, ih h']
      rw [DataLoaderLite.next_batch_snd_no_wrap]
      · congr 1
        simp
        ring
      · simp
        have e3 : (n + 1) * (B * T * W) = n * (B * T * W) + B * T * W := by ring
        omega

theorem LoaderInv.establish {B T r W : ℕ} {shards : List (List ℕ)}
    (hr : r < W) (hsh : shards ≠ [])
    (hlen : ∀ sh ∈ shards, B * T * W + 1 ≤ sh.length) :
    LoaderInv B T r W shards (DataLoaderLite.init B T r W shards) := by
  refine ⟨rfl, rfl, rfl, rfl, rfl, List.length_pos.mpr hsh, rfl, ?_⟩
  have hmem : shards.getD 0 [] ∈ shards := by
    rw [List.getD_eq_getElem shards [] (List.length_pos.mpr hsh)]
    exact List.getElem_mem _
  have h1 := hlen _ hmem
  have h2 : B * T * (r + 1) ≤ B * T * W := Nat.mul_le_mul_left _ hr
  have h3 : B * T * (r + 1) = B * T * r + B * T := by ring
  simp only [DataLoaderLite.init, DataLoaderLite.reset]
  omega

theorem LoaderInv.preserved {B T r W : ℕ} {shards : List (List ℕ)} {d : DataLoaderLite}
    (hr : r < W) (hsh : shards ≠ [])
    (hlen : ∀ sh ∈ shards, B * T * W + 1 ≤ sh.length)
    (hd : LoaderInv B T r W shards d) :
    LoaderInv B T r W shards (d.next_batch).2 := by
  obtain ⟨hB, hT, hrk, hW, hS, hcs, htok, hpos⟩ := hd
  subst hB
  subst hT
  subst hrk
  subst hW
  subst hS
  by_cases hc : d.tokens.length < d.current_position + d.B * d.T * d.num_processes
      + (d.B * d.T * d.num_processes + 1)
  · rw [DataLoaderLite.next_batch_snd_wrap d hc]
    have hns : (d.current_shard + 1) % d.shards.length < d.shards.length :=
      Nat.mod_lt _ (List.length_pos.mpr hsh)
    refine ⟨rfl, rfl, rfl, rfl, rfl, hns, rfl, ?_⟩
    have hmem : d.shards.getD ((d.current_shard + 1) % d.shards.length) [] ∈ d.shards := by
      rw [List.getD_eq_getElem d.shards [] hns]
      exact List.getElem_mem _
    have h1 := hlen _ hmem
    have h2 : d.B * d.T * (d.process_rank + 1) ≤ d.B * d.T * d.num_processes :=
      Nat.mul_le_mul_left _ hr
    have h3 : d.B * d.T * (d.process_rank + 1) = d.B * d.T * d.process_rank + d.B * d.T := by
      ring
    dsimp only
    omega
  · push_neg at hc
    rw [DataLoaderLite.next_batch_snd_no_wrap d hc]
    refine ⟨rfl, rfl, rfl, rfl, rfl, hcs, htok, ?_⟩
    have hW1 : 1 ≤ d.num_processes := by omega
    have h2 : d.B * d.T * 1 ≤ d.B * d.T * d.num_processes := Nat.mul_le_mul_left _ hW1
    have h3 : d.B * d.T * 1 = d.B * d.T := by ring
    dsimp only
    omega

theorem LoaderInv.run {B T r W : ℕ} {shards : List (List ℕ)}
    (hr : r < W) (hsh : shards ≠ [])
    (hlen : ∀ sh ∈ shards, B * T * W + 1 ≤ sh.length) (n : ℕ) :
    LoaderInv B T r W shards ((DataLoaderLite.init B T r W shards).run n) := by
  induction n with
  | zero => exact LoaderInv.establish hr hsh hlen
  | succ n ih => exact LoaderInv.preserved hr hsh hlen ih

/-- C10: with rank r < W and every shard at least B*T*W + 1 tokens long, the
cursor of the loader always satisfies cursor + B*T + 1 ≤ current shard
length when next_batch reads, so every call finds a full window of B*T+1
tokens and both views to [B,T] succeed (the batch is some). -/
theorem c10_loader_window_safety (B T r W : ℕ) (shards : List (List ℕ)) (n : ℕ)
    (hr : r < W) (hsh : shards ≠ [])
    (hlen : ∀ sh ∈ shards, B * T * W + 1 ≤ sh.length) :
    ((DataLoaderLite.init B T r W shards).run n).current_position + (B * T + 1)
        ≤ ((DataLoaderLite.init B T r W shards).run n).tokens.length
    ∧ ((((DataLoaderLite.init B T r W shards).run n).next_batch).1).isSome = true := by
  obtain ⟨hB, hT, hrk, hW, hS, hcs, htok, hpos⟩ := LoaderInv.run hr hsh hlen n
  refine ⟨hpos, ?_⟩
  have h : ((DataLoaderLite.init B T r W shards).run n).current_position
      + (((DataLoaderLite.init B T r W shards).run n).B
          * ((DataLoaderLite.init B T r W shards).run n).T + 1)
      ≤ ((DataLoaderLite.init B T r W shards).run n).tokens.length := by
    rw [hB, hT]
    exact hpos
  rw [DataLoaderLite.next_batch_fst _ h]
  rfl

/-- Witness for C10 at B=1, T=1, rank 0 of world size 1, one shard of three
tokens, after three calls. -/
theorem c10_loader_window_safety_witness :
    ((DataLoaderLite.init 1 1 0 1 [[5, 6, 7]]).run 3).current_position + (1 * 1 + 1)
        ≤ ((DataLoaderLite.init 1 1 0 1 [[5, 6, 7]]).run 3).tokens.length
    ∧ ((((DataLoaderLite.init 1 1 0 1 [[5, 6, 7]]).run 3).next_batch).1).isSome = true :=
  c10_loader_window_safety 1 1 0 1 [[5, 6, 7]] 3 (by decide) (by decide) (by decide)

/-- Disjointness of two equal-length windows whose starts differ by distinct
multiples of the window length. -/
theorem stride_windows_disjoint (L off r s : ℕ) (hrs : r ≠ s) :
    Disjoint (Finset.Ico (r * L + off) (r * L + off + L))
             (Finset.Ico (s * L + off) (s * L + off + L)) := by
  rw [Finset.disjoint_left]
  intro x hx hx'
  rw [Finset.mem_Ico] at hx hx'
  rcases Nat.lt_or_ge r s with hlt | hge
  · have h1 : (r + 1) * L ≤ s * L := Nat.mul_le_mul_right L hlt
    have h2 : (r + 1) * L = r * L + L := by ring
    omega
  · have hlt' : s < r := lt_of_le_of_ne hge (Ne.symm hrs)
    have h1 : (s + 1) * L ≤ r * L := Nat.mul_le_mul_right L hlt'
    have h2 : (s + 1) * L = s * L + L := by ring
    omega

/-- C5: end-to-end loader scenario on a 10000-token shard with B=2, T=4,
world_size=1, rank 0.  The first next_batch returns inputs tokens[0:8] and
targets tokens[1:9], each viewed as [2,4], and leaves the cursor at 8; the
second call reads tokens[8:16] (targets tokens[9:17]); after 1248 calls the
cursor is at 9984, and the 1249th call wraps back to shard index 0 with the
cursor reset to 0.  In general, whenever a full window is available,
next_batch reads the B*T+1 tokens at the cursor, the targets are the
one-position-shifted window, and (when no shard wrap triggers) the cursor
advances by B*T*num_processes. -/
theorem c5_loader_scenario (ts : List ℕ) (h : ts.length = 10000) :
    ((DataLoaderLite.init 2 4 0 1 [ts]).next_batch).1
        = some (reshape2d 2 4 (pySlice 0 8 ts), reshape2d 2 4 (pySlice 1 9 ts))
    ∧ (((DataLoaderLite.init 2 4 0 1 [ts]).next_batch).2).current_position = 8
    ∧ ((((DataLoaderLite.init 2 4 0 1 [ts]).run 1).next_batch)).1
        = some (reshape2d 2 4 (pySlice 8 16 ts), reshape2d 2 4 (pySlice 9 17 ts))
    ∧ ((DataLoaderLite.init 2 4 0 1 [ts]).run 1248).current_position = 9984
    ∧ ((DataLoaderLite.init 2 4 0 1 [ts]).run 1249).current_shard = 0
    ∧ ((DataLoaderLite.init 2 4 0 1 [ts]).run 1249).current_position = 0
    ∧ ((DataLoaderLite.init 2 4 0 1 [ts]).run 1249).tokens = ts
    ∧ (∀ d : DataLoaderLite,
        d.current_position + (d.B * d.T + 1) ≤ d.tokens.length →
          (d.next_batch).1 = some
            (reshape2d d.B d.T
              (pySlice d.current_position (d.current_position + d.B * d.T) d.tokens),
             reshape2d d.B d.T
              (pySlice (d.current_position + 1) (d.current_position + 1 + d.B * d.T) d.tokens)))
    ∧ (∀ d : DataLoaderLite,
        d.current_position + d.B * d.T * d.num_processes
            + (d.B * d.T * d.num_processes + 1) ≤ d.tokens.length →
          ((d.next_batch).2).current_position
            = d.current_position + d.B * d.T * d.num_processes) := by
  have h0 := DataLoaderLite.run_no_wrap 2 4 0 1 ts 0 (by omega)
  have h1 := DataLoaderLite.run_no_wrap 2 4 0 1 ts 1 (by omega)
  have h1248 := DataLoaderLite.run_no_wrap 2 4 0 1 ts 1248 (by omega)
  norm_num at h0 h1 h1248
  have hinit : DataLoaderLite.init 2 4 0 1 [ts]
      = { B := 2, T := 4, process_rank := 0, num_processes := 1, shards := [ts],
          current_shard := 0, tokens := ts, current_position := 0 } := h0
  refine ⟨?_, ?_, ?_, ?_, ?_, ?_, ?_, ?_, ?_⟩
  · rw [hinit]
    have hb := DataLoaderLite.next_batch_fst
      { B := 2, T := 4, process_rank := 0, num_processes := 1, shards := [ts],
        current_shard := 0, tokens := ts, current_position := 0 } (by dsimp only; omega)
    norm_num at hb
    exact hb
  · rw [hinit]
    rw [DataLoaderLite.next_batch_snd_no_wrap _ (by dsimp only; omega)]
    norm_num
  · rw [show (DataLoaderLite.init 2 4 0 1 [ts]).run 1
        = { B := 2, T := 4, process_rank := 0, num_processes := 1, shards := [ts],
            current_shard := 0, tokens := ts, current_position := 8 } from h1]
    have hb := DataLoaderLite.next_batch_fst
      { B := 2, T := 4, process_rank := 0, num_processes := 1, shards := [ts],
        current_shard := 0, tokens := ts, current_position := 8 } (by dsimp only; omega)
    norm_num at hb
    exact hb
  · rw [h1248]
  · rw [show (1249 : ℕ) = 1248 + 1 from rfl, DataLoaderLite.run, h1248,
      DataLoaderLite.next_batch_snd_wrap _ (by dsimp only; omega)]
    norm_num
  · rw [show (1249 : ℕ) = 1248 + 1 from rfl, DataLoaderLite.run, h1248,
      DataLoaderLite.next_batch_snd_wrap _ (by dsimp only; omega)]
    norm_num
  · rw [show (1249 : ℕ) = 1248 + 1 from rfl, DataLoaderLite.run, h1248,
      DataLoaderLite.next_batch_snd_wrap _ (by dsimp only; omega)]
    norm_num
  · intro d hd
    exact DataLoaderLite.next_batch_fst d hd
  · intro d hd
    rw [DataLoaderLite.next_batch_snd_no_wrap d hd]

/-- Witness for C5: the scenario instantiated on the concrete shard
0,1,...,9999. -/
theorem c5_loader_scenario_witness :
    ((DataLoaderLite.init 2 4 0 1 [List.range 10000]).next_batch).1
        = some (reshape2d 2 4 (pySlice 0 8 (List.range 10000)),
                reshape2d 2 4 (pySlice 1 9 (List.range 10000))) :=
  (c5_loader_scenario (List.range 10000) (by simp)).1

/-- C6 counterexample: with B=1, T=1, world_size W=2, the full read windows
(B*T+1 = 2 tokens each) of rank 0 and rank 1 at the same step n=0 are NOT
disjoint: rank 0 reads positions 0 and 1 while rank 1 reads positions 1 and
2, sharing the boundary position 1. -/
theorem c6_read_windows_overlap :
    ¬ Disjoint (DataLoaderLite.init 1 1 0 2 [List.range 4]).readPositions
               (DataLoaderLite.init 1 1 1 2 [List.range 4]).readPositions := by
  decide

/-- C6 amended: rank r's n-th read starts at r*B*T + n*B*T*W and covers the
B*T+1 positions from there; for distinct ranks at the same step n the B*T
input windows (the tokens that become the inputs x) are pairwise disjoint,
while the full B*T+1-token reads can share exactly the one boundary token. -/
theorem c6_rank_windows (B T W r s n : ℕ) (ts : List ℕ) (hrs : r ≠ s)
    (hlr : r * (B * T) + n * (B * T * W) + (B * T * W + 1) ≤ ts.length)
    (hls : s * (B * T) + n * (B * T * W) + (B * T * W + 1) ≤ ts.length) :
    ((DataLoaderLite.init B T r W [ts]).run n).current_position
        = r * (B * T) + n * (B * T * W)
    ∧ ((DataLoaderLite.init B T r W [ts]).run n).readPositions
        = Finset.Ico (r * (B * T) + n * (B * T * W))
            (r * (B * T) + n * (B * T * W) + (B * T + 1))
    ∧ Disjoint ((DataLoaderLite.init B T r W [ts]).run n).inputPositions
               ((DataLoaderLite.init B T s W [ts]).run n).inputPositions := by
  have h1 := DataLoaderLite.run_no_wrap B T r W ts n hlr
  have h2 := DataLoaderLite.run_no_wrap B T s W ts n hls
  rw [h1, h2]
  refine ⟨rfl, rfl, ?_⟩
  show Disjoint
    (Finset.Ico (r * (B * T) + n * (B * T * W)) (r * (B * T) + n * (B * T * W) + B * T))
    (Finset.Ico (s * (B * T) + n * (B * T * W)) (s * (B * T) + n * (B * T * W) + B * T))
  exact stride_windows_disjoint (B * T) (n * (B * T * W)) r s hrs

/-- Witness for the amended C6 at B=1, T=1, W=2, ranks 0 and 1, step 0. -/
theorem c6_rank_windows_witness :
    Disjoint ((DataLoaderLite.init 1 1 0 2 [List.range 4]).run 0).inputPositions
             ((DataLoaderLite.init 1 1 1 2 [List.range 4]).run 0).inputPositions :=
  (c6_rank_windows 1 1 2 0 1 0 (List.range 4) (by decide) (by simp) (by simp)).2.2

/-! ## C3: gradient-accumulation equivalence -/

/-- C3: for every k ≥ 1, summing the gradients of the k micro-step losses
(each the micro-batch mean loss scaled by 1/k, gradients summed and never
zeroed within the window) equals the gradient of the mean-reduced loss of
the single concatenated batch, exactly in exact arithmetic; hence any
optimizer step, being a function of the accumulated gradient, produces the
identical parameter update. -/
theorem c3_grad_accum_equivalence (k N : ℕ) {ι : Type} (g : Fin k → Fin N → ι → ℚ)
    (_hk : 1 ≤ k) :
    accumulatedGrad k N g = fullBatchGrad k N g
    ∧ ∀ (P : Type) (optStep : (ι → ℚ) → P),
        optStep (accumulatedGrad k N g) = optStep (fullBatchGrad k N g) := by
  have he : accumulatedGrad k N g = fullBatchGrad k N g := by
    funext p
    show (∑ m : Fin k, (∑ b : Fin N, g m b p) / (N : ℚ) / (k : ℚ))
        = (∑ m : Fin k, ∑ b : Fin N, g m b p) / ((k : ℚ) * (N : ℚ))
    calc (∑ m : Fin k, (∑ b : Fin N, g m b p) / (N : ℚ) / (k : ℚ))
        = ∑ m : Fin k, (∑ b : Fin N, g m b p) / ((N : ℚ) * (k : ℚ)) := by
          simp only [div_div]
      _ = (∑ m : Fin k, ∑ b : Fin N, g m b p) / ((N : ℚ) * (k : ℚ)) :=
          (Finset.sum_div ..).symm
      _ = (∑ m : Fin k, ∑ b : Fin N, g m b p) / ((k : ℚ) * (N : ℚ)) := by
          rw [mul_comm (N : ℚ) (k : ℚ)]
  exact ⟨he, fun P optStep => by rw [he]⟩

/-- Witness for C3 at k = 2 micro-steps of N = 3 positions each. -/
theorem c3_grad_accum_equivalence_witness :
    accumulatedGrad 2 3 gExample = fullBatchGrad 2 3 gExample :=
  (c3_grad_accum_equivalence 2 3 gExample (by decide)).1

/-! ## C4: learning-rate schedule -/

theorem max_lr_pos : (0 : ℝ) < max_lr := by
  rw [max_lr]
  norm_num

theorem min_lr_lt_max_lr : min_lr < max_lr := by
  rw [min_lr, max_lr]
  norm_num

theorem warmup_lt_max_steps : warm_up_steps < max_steps := by decide

theorem get_lr_of_warmup (s : ℕ) (hs : s < warm_up_steps) :
    get_lr s = ((s : ℝ) + 1) * max_lr / (warm_up_steps : ℝ) := by
  rw [get_lr, if_pos hs]

theorem get_lr_of_cosine (s : ℕ) (h1 : warm_up_steps ≤ s) (h2 : s ≤ max_steps) :
    get_lr s = min_lr
      + 0.5 * (1 + Real.cos (Real.pi
          * (((s : ℝ) - (warm_up_steps : ℝ)) / ((max_steps : ℝ) - (warm_up_steps : ℝ)))))
        * (max_lr - min_lr) := by
  rw [get_lr, if_neg (by omega), if_neg (by omega)]

theorem get_lr_of_floor (s : ℕ) (hs : max_steps < s) : get_lr s = min_lr := by
  have hw := warmup_lt_max_steps
  rw [get_lr, if_neg (by omega), if_pos hs]

theorem denom_pos : (0 : ℝ) < (max_steps : ℝ) - (warm_up_steps : ℝ) := by
  rw [max_steps, warm_up_steps]
  norm_num

theorem get_lr_at_zero : get_lr 0 = max_lr / (warm_up_steps : ℝ) := by
  rw [get_lr_of_warmup 0 (by decide)]
  norm_num

theorem get_lr_at_warmup : get_lr warm_up_steps = max_lr := by
  rw [get_lr_of_cosine warm_up_steps le_rfl (le_of_lt warmup_lt_max_steps)]
  rw [sub_self, zero_div, mul_zero, Real.cos_zero]
  ring

theorem get_lr_at_max : get_lr max_steps = min_lr := by
  rw [get_lr_of_cosine max_steps (le_of_lt warmup_lt_max_steps) le_rfl]
  rw [div_self (ne_of_gt denom_pos), mul_one, Real.cos_pi]
  ring

theorem get_lr_le_max_of_warmup (s : ℕ) (hs : s < warm_up_steps) : get_lr s ≤ max_lr := by
  rw [get_lr_of_warmup s hs]
  have h2 : (0 : ℝ) < (warm_up_steps : ℝ) := by
    rw [warm_up_steps]
    norm_num
  have h1 : ((s : ℝ) + 1) * max_lr ≤ (warm_up_steps : ℝ) * max_lr := by
    apply mul_le_mul_of_nonneg_right _ (le_of_lt max_lr_pos)
    have hcast : ((s : ℝ) + 1) = ((s + 1 : ℕ) : ℝ) := by push_cast; ring
    rw [hcast]
    exact_mod_cast hs
  calc ((s : ℝ) + 1) * max_lr / (warm_up_steps : ℝ)
      ≤ (warm_up_steps : ℝ) * max_lr / (warm_up_steps : ℝ) :=
        div_le_div_of_nonneg_right h1 h2.le
    _ = max_lr := by
        rw [mul_comm, mul_div_assoc, div_self (ne_of_gt h2), mul_one]

theorem get_lr_warmup_mono (s t : ℕ) (hst : s ≤ t) (ht : t ≤ warm_up_steps) :
    get_lr s ≤ get_lr t := by
  rcases Nat.lt_or_ge t warm_up_steps with htl | hte
  · have hsl : s < warm_up_steps := lt_of_le_of_lt hst htl
    rw [get_lr_of_warmup s hsl, get_lr_of_warmup t htl]
    have h2 : (0 : ℝ) < (warm_up_steps : ℝ) := by
      rw [warm_up_steps]
      norm_num
    apply div_le_div_of_nonneg_right _ h2.le
    apply mul_le_mul_of_nonneg_right _ (le_of_lt max_lr_pos)
    have : (s : ℝ) ≤ (t : ℝ) := by exact_mod_cast hst
    linarith
  · have hteq : t = warm_up_steps := le_antisymm ht hte
    subst hteq
    rw [get_lr_at_warmup]
    rcases Nat.lt_or_ge s warm_up_steps with hsl | hse
    · exact get_lr_le_max_of_warmup s hsl
    · have : s = warm_up_steps := le_antisymm hst hse
      subst this
      rw [get_lr_at_warmup]

theorem get_lr_decay_anti (s t : ℕ) (hs : warm_up_steps ≤ s) (hst : s ≤ t)
    (ht : t ≤ max_steps) : get_lr t ≤ get_lr s := by
  have hsm : s ≤ max_steps := le_trans hst ht
  have htw : warm_up_steps ≤ t := le_trans hs hst
  rw [get_lr_of_cosine s hs hsm, get_lr_of_cosine t htw ht]
  have hden := denom_pos
  have hΔ : (0 : ℝ) ≤ max_lr - min_lr := by
    have := min_lr_lt_max_lr
    linarith
  have hcos : Real.cos (Real.pi
        * (((t : ℝ) - (warm_up_steps : ℝ)) / ((max_steps : ℝ) - (warm_up_steps : ℝ))))
      ≤ Real.cos (Real.pi
        * (((s : ℝ) - (warm_up_steps : ℝ)) / ((max_steps : ℝ) - (warm_up_steps : ℝ)))) := by
    apply Real.cos_le_cos_of_nonneg_of_le_pi
    · apply mul_nonneg (le_of_lt Real.pi_pos)
      apply div_nonneg _ (le_of_lt hden)
      have : (warm_up_steps : ℝ) ≤ (s : ℝ) := by exact_mod_cast hs
      linarith
    · have hle1 : ((t : ℝ) - (warm_up_steps : ℝ)) / ((max_steps : ℝ) - (warm_up_steps : ℝ))
          ≤ 1 := by
        rw [div_le_one hden]
        have : (t : ℝ) ≤ (max_steps : ℝ) := by exact_mod_cast ht
        linarith
      calc Real.pi * (((t : ℝ) - (warm_up_steps : ℝ)) / ((max_steps : ℝ) - (warm_up_steps : ℝ)))
          ≤ Real.pi * 1 := by
            apply mul_le_mul_of_nonneg_left hle1 (le_of_lt Real.pi_pos)
        _ = Real.pi := mul_one _
    · apply mul_le_mul_of_nonneg_left _ (le_of_lt Real.pi_pos)
      apply div_le_div_of_nonneg_right _ hden.le
      have : (s : ℝ) ≤ (t : ℝ) := by exact_mod_cast hst
      linarith
  have h1 : 0.5 * (1 + Real.cos (Real.pi
        * (((t : ℝ) - (warm_up_steps : ℝ)) / ((max_steps : ℝ) - (warm_up_steps : ℝ)))))
      ≤ 0.5 * (1 + Real.cos (Real.pi
        * (((s : ℝ) - (warm_up_steps : ℝ)) / ((max_steps : ℝ) - (warm_up_steps : ℝ))))) := by
    linarith
  have h2 := mul_le_mul_of_nonneg_right h1 hΔ
  linarith

/-- C4: the learning rate is a pure function of the step counter with
lr(0) = max_lr/warmup_steps, lr(warmup_steps) = max_lr,
lr(max_steps) = min_lr, non-decreasing on [0, warmup_steps], non-increasing
(cosine decay) on [warmup_steps, max_steps], and constantly min_lr for
every step beyond max_steps. -/
theorem c4_lr_schedule_spec :
    get_lr 0 = max_lr / (warm_up_steps : ℝ)
    ∧ get_lr warm_up_steps = max_lr
    ∧ get_lr max_steps = min_lr
    ∧ (∀ s t : ℕ, s ≤ t → t ≤ warm_up_steps → get_lr s ≤ get_lr t)
    ∧ (∀ s t : ℕ, warm_up_steps ≤ s → s ≤ t → t ≤ max_steps → get_lr t ≤ get_lr s)
    ∧ ∀ s : ℕ, max_steps < s → get_lr s = min_lr :=
  ⟨get_lr_at_zero, get_lr_at_warmup, get_lr_at_max,
   get_lr_warmup_mono, get_lr_decay_anti, get_lr_of_floor⟩

/-- Witness for C4 at concrete steps 100 ≤ 200 in warmup, 900 ≤ 1000 in the
decay range, and 20000 beyond max_steps. -/
theorem c4_lr_schedule_spec_witness :
    get_lr 0 = max_lr / (warm_up_steps : ℝ)
    ∧ get_lr 100 ≤ get_lr 200
    ∧ get_lr 1000 ≤ get_lr 900
    ∧ get_lr 20000 = min_lr :=
  ⟨c4_lr_schedule_spec.1,
   c4_lr_schedule_spec.2.2.2.1 100 200 (by decide) (by decide),
   c4_lr_schedule_spec.2.2.2.2.1 900 1000 (by decide) (by decide) (by decide),
   c4_lr_schedule_spec.2.2.2.2.2 20000 (by decide)⟩

/-! ## C1: distributed gradient synchronization -/

/-- C1 (evidence of the code defect): with ddp enabled, the object bound to
the name model when the training loop starts is not a DDP wrapper, because
line 272 constructs DDP(model, ...) and discards it; consequently zero
gradient all-reduces happen in every accumulation window of k micro-steps
(line 349 sets require_backward_grad_sync on a module without
communication hooks).  Had the wrapper been bound, every window of
k ≥ 1 micro-steps would perform exactly one all-reduce, at the final
micro-step k-1 and at no earlier micro-step — which is what the claim
describes. -/
theorem c1_ddp_allreduce_count :
    (scriptModel true).is_ddp_wrapper = false
    ∧ (∀ k : ℕ, allReducesPerWindow (scriptModel true) k = 0)
    ∧ ∀ k : ℕ, 1 ≤ k →
        allReducesPerWindow (ddpWrap (torchCompile gptModule)) k = 1
        ∧ microStepAllReduces (ddpWrap (torchCompile gptModule)) (k - 1) k = true
        ∧ ∀ ms : ℕ, ms < k - 1 →
            microStepAllReduces (ddpWrap (torchCompile gptModule)) ms k = false := by
  refine ⟨rfl, ?_, ?_⟩
  · intro k
    simp [allReducesPerWindow, microStepAllReduces, scriptModel, modelAfterDDPLine,
      torchCompile, gptModule]
  · intro k hk
    refine ⟨?_, ?_, ?_⟩
    · show ((List.range k).filter
        (fun ms => microStepAllReduces (ddpWrap (torchCompile gptModule)) ms k)).length = 1
      have hp : (fun ms => microStepAllReduces (ddpWrap (torchCompile gptModule)) ms k)
          = (fun ms => ms == k - 1) := by
        funext ms
        simp [microStepAllReduces, ddpWrap]
      rw [hp]
      have hcount : ((List.range k).filter (fun ms => ms == k - 1)).length
          = (List.range k).count (k - 1) := by
        rw [List.count]
        rw [List.countP_eq_length_filter]
      rw [hcount]
      apply List.count_eq_one_of_mem (List.nodup_range k)
      rw [List.mem_range]
      omega
    · simp [microStepAllReduces, ddpWrap]
    · intro ms hms
      simp only [microStepAllReduces, ddpWrap, Bool.true_and]
      simp only [beq_eq_false_iff_ne, ne_eq]
      omega

/-- Witness for C1 at a window of 4 micro-steps. -/
theorem c1_ddp_allreduce_count_witness :
    allReducesPerWindow (scriptModel true) 4 = 0
    ∧ allReducesPerWindow (ddpWrap (torchCompile gptModule)) 4 = 1 :=
  ⟨c1_ddp_allreduce_count.2.1 4, (c1_ddp_allreduce_count.2.2 4 (by decide)).1⟩

/-! ## C2: weight initialization -/

/-- C2 (evidence of the code defect): _init_weights draws attn.c_proj from
the depth-scaled std 0.02*(2*n_layer)^-0.5, but mlp.c_proj — designated a
residual projection by the claim just like attn.c_proj — from plain std
0.02, because only CausalSelfAttention.__init__ sets NANOGPT_SCALE_INIT
(line 27) while MLP.__init__ (lines 10-14) does not.  At the default
n_layer = 12 the two standard deviations differ, so the claim fails on
mlp.c_proj.  Linear biases are zeroed and embedding weights use std 0.02
as claimed. -/
theorem c2_mlp_proj_std_unscaled :
    initWeightStd 12 mlp_c_proj = some 0.02
    ∧ initWeightStd 12 attn_c_proj = some (0.02 * ((2 * ((12 : ℕ) : ℝ)) ^ (-0.5 : ℝ)))
    ∧ 0.02 * ((2 * ((12 : ℕ) : ℝ)) ^ (-0.5 : ℝ)) ≠ (0.02 : ℝ)
    ∧ initBiasValue mlp_c_proj = some 0
    ∧ initBiasValue attn_c_proj = some 0
    ∧ initWeightStd 12 PyModule.embedding = some 0.02 := by
  refine ⟨rfl, rfl, ?_, rfl, rfl, rfl⟩
  have h24 : (2 * ((12 : ℕ) : ℝ)) = (24 : ℝ) := by norm_num
  rw [h24]
  have hlt : (24 : ℝ) ^ (-0.5 : ℝ) < 1 :=
    Real.rpow_lt_one_of_one_lt_of_neg (by norm_num) (by norm_num)
  have hfin : 0.02 * (24 : ℝ) ^ (-0.5 : ℝ) < 0.02 * 1 :=
    mul_lt_mul_of_pos_left hlt (by norm_num)
  rw [mul_one] at hfin
  exact ne_of_lt hfin

/-! ## C7: causality of the forward pass -/

theorem mem_causalSet {T : ℕ} {t j : Fin T} : j ∈ causalSet t ↔ j ≤ t := by
  simp [causalSet]

theorem attnQKV_agree {C T : ℕ} (p : AttnParams C) {x y : Fin T → Fin C → ℝ}
    {i : Fin T} (h : AgreeUpTo i x y) {j : Fin T} (hj : j ≤ i) :
    attnQKV p x j = attnQKV p y j := by
  rw [attnQKV, attnQKV, h j hj]

theorem attnScore_agree {C T : ℕ} (H : ℕ) (p : AttnParams C)
    {x y : Fin T → Fin C → ℝ} {i : Fin T} (h : AgreeUpTo i x y) {t j : Fin T}
    (ht : t ≤ i) (hj : j ≤ i) (hd : ℕ) :
    attnScore H p x t j hd = attnScore H p y t j hd := by
  rw [attnScore, attnScore]
  congr 1
  apply Finset.sum_congr rfl
  intro d _
  rw [attnQ, attnQ, attnK, attnK, attnQKV_agree p h ht, attnQKV_agree p h hj]

theorem attnV_agree {C T : ℕ} (p : AttnParams C) {x y : Fin T → Fin C → ℝ}
    {i : Fin T} (h : AgreeUpTo i x y) {j : Fin T} (hj : j ≤ i) (n : ℕ) :
    attnV p x j n = attnV p y j n := by
  rw [attnV, attnV, attnQKV_agree p h hj]

theorem attnWeight_agree {C T : ℕ} (H : ℕ) (p : AttnParams C)
    {x y : Fin T → Fin C → ℝ} {i : Fin T} (h : AgreeUpTo i x y) {t j : Fin T}
    (ht : t ≤ i) (hj : j ≤ i) (hd : ℕ) :
    attnWeight H p x t j hd = attnWeight H p y t j hd := by
  rw [attnWeight, attnWeight, attnScore_agree H p h ht hj]
  congr 1
  apply Finset.sum_congr rfl
  intro j' hj'
  rw [attnScore_agree H p h ht (le_trans (mem_causalSet.mp hj') ht)]

theorem attnY_agree {C T : ℕ} (H : ℕ) (p : AttnParams C)
    {x y : Fin T → Fin C → ℝ} {i : Fin T} (h : AgreeUpTo i x y) {t : Fin T}
    (ht : t ≤ i) (c : Fin C) : attnY H p x t c = attnY H p y t c := by
  rw [attnY, attnY]
  apply Finset.sum_congr rfl
  intro j hj
  have hjt : j ≤ t := mem_causalSet.mp hj
  rw [attnWeight_agree H p h ht (le_trans hjt ht),
    attnV_agree p h (le_trans hjt ht)]

theorem attnLayerForward_agree {C T : ℕ} (H : ℕ) (p : AttnParams C)
    {x y : Fin T → Fin C → ℝ} {i : Fin T} (h : AgreeUpTo i x y) {t : Fin T}
    (ht : t ≤ i) :
    CausalSelfAttention.forward H p x t = CausalSelfAttention.forward H p y t := by
  have hY : attnY H p x t = attnY H p y t := funext (attnY_agree H p h ht)
  rw [CausalSelfAttention.forward, CausalSelfAttention.forward, hY]

theorem Block.attnResidual_agree {C T : ℕ} (H : ℕ) (p : BlockParams C)
    {x y : Fin T → Fin C → ℝ} {i : Fin T} (h : AgreeUpTo i x y) :
    AgreeUpTo i (Block.attnResidual H p x) (Block.attnResidual H p y) := by
  intro j hj
  have hln : AgreeUpTo i (fun u => layerNorm p.ln_1 (x u))
      (fun u => layerNorm p.ln_1 (y u)) := by
    intro j' hj'
    simp only
    rw [h j' hj']
  funext c
  show x j c + CausalSelfAttention.forward H p.attn (fun u => layerNorm p.ln_1 (x u)) j c
      = y j c + CausalSelfAttention.forward H p.attn (fun u => layerNorm p.ln_1 (y u)) j c
  rw [h j hj, attnLayerForward_agree H p.attn hln hj]

theorem blockForward_agree {C T : ℕ} (H : ℕ) (p : BlockParams C)
    {x y : Fin T → Fin C → ℝ} {i : Fin T} (h : AgreeUpTo i x y) :
    AgreeUpTo i (Block.forward H p x) (Block.forward H p y) := by
  intro j hj
  have h1 := Block.attnResidual_agree H p h
  funext c
  show Block.attnResidual H p x j c
        + (p.mlp.forward (layerNorm p.ln_2 (Block.attnResidual H p x j))) c
      = Block.attnResidual H p y j c
        + (p.mlp.forward (layerNorm p.ln_2 (Block.attnResidual H p y j))) c
  rw [h1 j hj]

theorem foldl_blocks_agree {C T : ℕ} (H : ℕ) {γ : Type} (ps : γ → BlockParams C)
    {i : Fin T} (ls : List γ) :
    ∀ {x y : Fin T → Fin C → ℝ}, AgreeUpTo i x y →
      AgreeUpTo i (ls.foldl (fun a l => Block.forward H (ps l) a) x)
                  (ls.foldl (fun a l => Block.forward H (ps l) a) y) := by
  induction ls with
  | nil => intro x y h; exact h
  | cons l ls ih =>
      intro x y h
      exact ih (blockForward_agree H (ps l) h)

theorem GPT.embed_agree (cfg : GPTConfig) (body : GPTBody cfg)
    (wE : Fin cfg.vocab_size → Fin cfg.n_embd → ℝ) {T : ℕ}
    {idx idx' : Fin T → Fin cfg.vocab_size} {i : Fin T}
    (h : ∀ j : Fin T, j ≤ i → idx j = idx' j) :
    AgreeUpTo i (GPT.embed cfg body wE idx) (GPT.embed cfg body wE idx') := by
  intro j hj
  funext c
  show wE (idx j) c + (if hb : j.1 < cfg.block_size then body.wpe ⟨j.1, hb⟩ c else 0)
      = wE (idx' j) c + (if hb : j.1 < cfg.block_size then body.wpe ⟨j.1, hb⟩ c else 0)
  rw [h j hj]

theorem GPT.logitsUntied_agree (cfg : GPTConfig) (body : GPTBody cfg)
    (wE wH : Fin cfg.vocab_size → Fin cfg.n_embd → ℝ) {T : ℕ}
    {idx idx' : Fin T → Fin cfg.vocab_size} {i : Fin T}
    (h : ∀ j : Fin T, j ≤ i → idx j = idx' j) :
    GPT.logitsUntied cfg body wE wH idx i = GPT.logitsUntied cfg body wE wH idx' i := by
  have htr : GPT.trunk cfg body wE idx i = GPT.trunk cfg body wE idx' i :=
    foldl_blocks_agree cfg.n_head body.h (List.finRange cfg.n_layer)
      (GPT.embed_agree cfg body wE h) i le_rfl
  funext v
  show (∑ c : Fin cfg.n_embd, wH v c * layerNorm body.ln_f (GPT.trunk cfg body wE idx i) c)
      = ∑ c : Fin cfg.n_embd, wH v c * layerNorm body.ln_f (GPT.trunk cfg body wE idx' i) c
  rw [htr]

/-- C7: causality.  If two token sequences agree at every position up to i,
the logits the model produces at position i are identical, so the logits at
position i are unchanged by any modification of the token ids strictly
after i.  This holds for every parameter set and every configuration. -/
theorem c7_causal_logits (cfg : GPTConfig) (p : GPTParams cfg) {T : ℕ}
    (idx idx' : Fin T → Fin cfg.vocab_size) (i : Fin T)
    (hagree : ∀ j : Fin T, j ≤ i → idx j = idx' j) :
    GPT.logits cfg p idx i = GPT.logits cfg p idx' i := by
  rw [GPT.logits, GPT.logits]
  exact GPT.logitsUntied_agree cfg p.body p.wte p.wte hagree

/-- Witness for C7: two 2-token inputs into the zero-parameter model that
agree at position 0 and differ at position 1 give the same logits at
position 0. -/
theorem c7_causal_logits_witness :
    GPT.logits cfgW paramsW idxW ⟨0, by decide⟩
      = GPT.logits cfgW paramsW idxW' ⟨0, by decide⟩ :=
  c7_causal_logits cfgW paramsW idxW idxW' ⟨0, by decide⟩ (by decide)

/-! ## C9: sequence-length guard and output shape -/

/-- C9: GPT.forward on a [batch, T] token array fails (returns none, the
line 99 assert) iff T exceeds the configured block_size, and for every
T ≤ block_size it returns the logits tensor — one Fin T → Fin vocab_size → ℝ
row of logits per batch element, the [batch, T, vocab_size] shape — without
error. -/
theorem c9_forward_guard (cfg : GPTConfig) (p : GPTParams cfg) {Bn T : ℕ}
    (idx : Fin Bn → Fin T → Fin cfg.vocab_size) :
    (GPT.forward cfg p idx = none ↔ cfg.block_size < T)
    ∧ (T ≤ cfg.block_size →
        GPT.forward cfg p idx = some (fun b => GPT.logits cfg p (idx b))) := by
  constructor
  · constructor
    · intro h
      by_contra hc
      push_neg at hc
      rw [GPT.forward, if_pos hc] at h
      exact Option.noConfusion h
    · intro h
      rw [GPT.forward, if_neg (by omega)]
  · intro h
    rw [GPT.forward, if_pos h]

/-- Witness for C9: at block_size 2 a 2-token batch of one sequence
succeeds, and the iff direction applies to it. -/
theorem c9_forward_guard_witness :
    GPT.forward cfgW paramsW (fun _ : Fin 1 => idxW)
      = some (fun _ => GPT.logits cfgW paramsW idxW) :=
  (c9_forward_guard cfgW paramsW (fun _ : Fin 1 => idxW)).2 (by decide)

/-! ## C8: weight tying -/

/-- C8: the token embedding and the output head share one storage
(line 82).  Consequently (a) the derivative of the training loss with
respect to the shared storage is the composition of the untied-loss
derivative with the diagonal — autograd applied to two usage sites of one
parameter; (b) that composed derivative is exactly the sum of the
embedding-usage contribution (the partial derivative in the first,
embedding slot) and the output-head contribution (the partial in the
second, head slot); (c) the two logical views of the storage are equal for
every parameter state, hence before and after every optimizer step. -/
theorem c8_weight_tying (cfg : GPTConfig) (body : GPTBody cfg) {T : ℕ}
    (idx targets : Fin T → Fin cfg.vocab_size) (w : WteSpace cfg)
    (D : (WteSpace cfg × WteSpace cfg) →L[ℝ] ℝ)
    (hD : HasFDerivAt
      (fun q : WteSpace cfg × WteSpace cfg =>
        GPT.lossUntied cfg body q.1 q.2 idx targets) D (w, w)) :
    HasFDerivAt (fun u : WteSpace cfg => GPT.loss cfg ⟨u, body⟩ idx targets)
      (D.comp ((ContinuousLinearMap.id ℝ (WteSpace cfg)).prod
        (ContinuousLinearMap.id ℝ (WteSpace cfg)))) w
    ∧ (∀ u : WteSpace cfg,
        (D.comp ((ContinuousLinearMap.id ℝ (WteSpace cfg)).prod
          (ContinuousLinearMap.id ℝ (WteSpace cfg)))) u
          = (D.comp (ContinuousLinearMap.inl ℝ (WteSpace cfg) (WteSpace cfg))) u
            + (D.comp (ContinuousLinearMap.inr ℝ (WteSpace cfg) (WteSpace cfg))) u)
    ∧ ∀ p : GPTParams cfg, wteView p = lmHeadView p := by
  refine ⟨?_, ?_, fun p => rfl⟩
  · have hdiag : HasFDerivAt (fun u : WteSpace cfg => (u, u))
        ((ContinuousLinearMap.id ℝ (WteSpace cfg)).prod
          (ContinuousLinearMap.id ℝ (WteSpace cfg))) w :=
      ((ContinuousLinearMap.id ℝ (WteSpace cfg)).prod
        (ContinuousLinearMap.id ℝ (WteSpace cfg))).hasFDerivAt
    have hcomp : HasFDerivAt
        ((fun q : WteSpace cfg × WteSpace cfg =>
            GPT.lossUntied cfg body q.1 q.2 idx targets)
          ∘ fun u : WteSpace cfg => (u, u))
        (D.comp ((ContinuousLinearMap.id ℝ (WteSpace cfg)).prod
          (ContinuousLinearMap.id ℝ (WteSpace cfg)))) w :=
      HasFDerivAt.comp w hD hdiag
    have hfe : ((fun q : WteSpace cfg × WteSpace cfg =>
          GPT.lossUntied cfg body q.1 q.2 idx targets)
        ∘ fun u : WteSpace cfg => (u, u))
        = fun u : WteSpace cfg => GPT.loss cfg ⟨u, body⟩ idx targets := by
      funext u
      simp [Function.comp, GPT.loss]
    rw [hfe] at hcomp
    exact hcomp
  · intro u
    rw [ContinuousLinearMap.comp_apply, ContinuousLinearMap.comp_apply,
      ContinuousLinearMap.comp_apply, ContinuousLinearMap.prod_apply,
      ContinuousLinearMap.id_apply, ContinuousLinearMap.inl_apply,
      ContinuousLinearMap.inr_apply, ← map_add]
    congr 1
    rw [Prod.mk_add_mk, add_zero, zero_add]

theorem lossUntied_cfgOne_eq_zero (wE wH : WteSpace cfgOne) :
    GPT.lossUntied cfgOne bodyOne wE wH idxOne idxOne = 0 := by
  have e1 : ∀ f : Fin 1 → ℝ, (∑ t : Fin 1, f t) = f 0 := fun f => Fin.sum_univ_one f
  have e2 : ∀ f : Fin cfgOne.vocab_size → ℝ,
      (∑ u : Fin cfgOne.vocab_size, f u) = f ⟨0, by decide⟩ := fun f => Fin.sum_univ_one f
  rw [GPT.lossUntied, e1, crossEntropyLoss, e2, Real.log_exp,
    show idxOne 0 = (⟨0, by decide⟩ : Fin cfgOne.vocab_size) from rfl, sub_self, zero_div]

/-- Witness for C8 at the degenerate one-of-everything configuration, where
the untied loss is constant (vocabulary size one) and hence differentiable
with derivative zero at the zero storage. -/
theorem c8_weight_tying_witness :
    HasFDerivAt (fun u : WteSpace cfgOne => GPT.loss cfgOne ⟨u, bodyOne⟩ idxOne idxOne)
      (((0 : (WteSpace cfgOne × WteSpace cfgOne) →L[ℝ] ℝ)).comp
        ((ContinuousLinearMap.id ℝ (WteSpace cfgOne)).prod
          (ContinuousLinearMap.id ℝ (WteSpace cfgOne)))) 0
    ∧ ∀ p : GPTParams cfgOne, wteView p = lmHeadView p := by
  have hconst : (fun q : WteSpace cfgOne × WteSpace cfgOne =>
      GPT.lossUntied cfgOne bodyOne q.1 q.2 idxOne idxOne) = fun _ => (0 : ℝ) :=
    funext fun q => lossUntied_cfgOne_eq_zero q.1 q.2
  have hD0 : HasFDerivAt
      (fun q : WteSpace cfgOne × WteSpace cfgOne =>
        GPT.lossUntied cfgOne bodyOne q.1 q.2 idxOne idxOne)
      (0 : (WteSpace cfgOne × WteSpace cfgOne) →L[ℝ] ℝ) (0, 0) := by
    rw [hconst]
    exact hasFDerivAt_const 0 _
  have h0 := c8_weight_tying cfgOne bodyOne idxOne idxOne 0 0 hD0
  exact ⟨h0.1, h0.2.2⟩
